import Mathlib

/-!
Verification of the opencode-agent-json-logging plugin (TypeScript) against its
specification.  The embedding below translates the plugin's source files
(`src/plugin/agent-logger/src/serializers.ts`, `config.ts`, the logger and
rotator modules) into executable Lean definitions.  JavaScript values flowing
through the serializers are modelled by the `JValue` type; JavaScript string
operations are modelled by explicit character-list functions so that every
definition evaluates by kernel reduction.
-/

/-! ### JavaScript string primitives (modelled over `List Char`) -/

/-- Model of JS `String.prototype.toLowerCase` (ASCII case folding via
`Char.toLower`, which covers every key the sensitive-field matcher uses). -/
def toLowerJs (s : String) : String := ⟨s.toList.map Char.toLower⟩

/-- Model of JS `String.prototype.endsWith`. -/
def endsWithJs (s pat : String) : Bool := pat.toList.isSuffixOf s.toList

/-- Model of JS `String.prototype.startsWith`. -/
def startsWithJs (s pat : String) : Bool := pat.toList.isPrefixOf s.toList

/-- Substring containment over character lists: does `pat` occur contiguously
inside `l`?  Checks a prefix match at every suffix position. -/
def isInfixList (pat : List Char) : List Char → Bool
  | [] => pat.isPrefixOf []
  | c :: cs => pat.isPrefixOf (c :: cs) || isInfixList pat cs

/-- Model of JS `String.prototype.includes` (substring containment). -/
def includesJs (s pat : String) : Bool := isInfixList pat.toList s.toList

/-- Model of JS `String.prototype.substring(0, n)` (also `String.prototype.take`-like
uses; for `n` past the end the whole string is returned, as in JS). -/
def takeJs (s : String) (n : Nat) : String := ⟨s.toList.take n⟩

/-- Model of JS `String.prototype.trim` (strip leading and trailing whitespace). -/
def trimJs (s : String) : String :=
  ⟨((s.toList.dropWhile Char.isWhitespace).reverse.dropWhile Char.isWhitespace).reverse⟩

/-- Length of a string, counted in characters as JS `String.prototype.length`
counts code units (identical on the ASCII data used here). -/
def lenJs (s : String) : Nat := s.toList.length

/-- Splitting a character list at a separator character; models
JS `String.prototype.split` with a one-character separator. -/
def splitOnCharAux (sep : Char) : List Char → List Char → List (List Char)
  | [], acc => [acc.reverse]
  | c :: cs, acc =>
    if c = sep then acc.reverse :: splitOnCharAux sep cs []
    else splitOnCharAux sep cs (c :: acc)

/-- Model of JS `str.split(sep)` for a one-character separator. -/
def splitJs (s : String) (sep : Char) : List String :=
  (splitOnCharAux sep s.toList []).map fun l => ⟨l⟩

/-- Model of JS `str.replace(pat, repl)` with a plain-string pattern: replaces
only the first occurrence, returns the input unchanged when absent. -/
def replaceOnceList (pat repl : List Char) : List Char → List Char
  | [] => if pat.isPrefixOf ([] : List Char) then repl else []
  | c :: cs =>
    if pat.isPrefixOf (c :: cs) then repl ++ (c :: cs).drop pat.length
    else c :: replaceOnceList pat repl cs

/-- String wrapper for `replaceOnceList`. -/
def replaceOnce (s pat repl : String) : String :=
  ⟨replaceOnceList pat.toList repl.toList s.toList⟩

/-- A string of `n` copies of one character (used to build concrete large
payloads in theorems). -/
def repChar (n : Nat) (c : Char) : String := ⟨List.replicate n c⟩

/-! ### The JavaScript value model -/

/-- Dynamic JavaScript/JSON values as the serializers see them.  `undefined`
does not appear as a stored value: the embedding represents would-be
`undefined` object properties by omitting the key, matching what
`JSON.stringify` emits. -/
inductive JValue where
  | vNull : JValue
  | vBool : Bool → JValue
  | vNum : Int → JValue
  | vStr : String → JValue
  | arr : List JValue → JValue
  | obj : List (String × JValue) → JValue

/-- JS truthiness of a value (`if (!payload) ...`): `null`, `false`, `0` and
`""` are falsy; objects and arrays are always truthy. -/
def jsTruthy : JValue → Bool
  | .vNull => false
  | .vBool b => b
  | .vNum n => !(n == 0)
  | .vStr s => !(s == "")
  | .arr _ => true
  | .obj _ => true

/-- `typeof v === 'object'` for a non-null value (arrays included). -/
def isJsObject : JValue → Bool
  | .arr _ => true
  | .obj _ => true
  | _ => false

/-- Number of own enumerable keys, as `Object.keys(v).length`. -/
def jsKeyCount : JValue → Nat
  | .obj kvs => kvs.length
  | .arr xs => xs.length
  | _ => 0

/-- Own enumerable values, as `Object.values(v)`. -/
def jsValues : JValue → List JValue
  | .obj kvs => kvs.map Prod.snd
  | .arr xs => xs
  | _ => []

/-- First-occurrence lookup of a property, as JS property access on an
object literal (JS objects cannot hold duplicate keys; on lists with
duplicates this takes the first, and all theorems use it consistently). -/
def getKey (k : String) : List (String × JValue) → Option JValue
  | [] => none
  | (k', v) :: rest => if k' = k then some v else getKey k rest

/-- Property update as in a spread-with-override object literal
`{...o, k: v}`: an existing key keeps its position and gets the new value,
a new key is appended. -/
def setKey (k : String) (v : JValue) : List (String × JValue) → List (String × JValue)
  | [] => [(k, v)]
  | (k', w) :: rest => if k' = k then (k', v) :: rest else (k', w) :: setKey k v rest

/-! ### JSON serialization (`JSON.stringify`) -/

/-- One hexadecimal digit (for control-character escapes). -/
def hexDigit (n : Nat) : Char :=
  if n < 10 then Char.ofNat (48 + n) else Char.ofNat (87 + n)

/-- Per-character JSON string escaping as `JSON.stringify` performs it. -/
def escChar (c : Char) : List Char :=
  if c = '"' then ['\\', '"']
  else if c = '\\' then ['\\', '\\']
  else if c = '\n' then ['\\', 'n']
  else if c = '\r' then ['\\', 'r']
  else if c = '\t' then ['\\', 't']
  else if c.toNat < 32 then
    ['\\', 'u', '0', '0', hexDigit (c.toNat / 16), hexDigit (c.toNat % 16)]
  else [c]

/-- JSON escaping of a whole string body. -/
def escapeJson (s : String) : String := ⟨s.toList.flatMap escChar⟩

/-- A JSON string literal: quote, escaped body, quote. -/
def quoteJson (s : String) : String := "\"" ++ escapeJson s ++ "\""

mutual

/-- Model of `JSON.stringify` on the `JValue` fragment (object keys in
insertion order, no spaces, as Node prints with no indent argument). -/
def jsonStringify : JValue → String
  | .vNull => "null"
  | .vBool true => "true"
  | .vBool false => "false"
  | .vNum n => toString n
  | .vStr s => quoteJson s
  | .arr xs => "[" ++ stringifyArr xs ++ "]"
  | .obj kvs => "\x7b" ++ stringifyObj kvs ++ "\x7d"

/-- Comma-separated serialization of array elements. -/
def stringifyArr : List JValue → String
  | [] => ""
  | [x] => jsonStringify x
  | x :: xs => jsonStringify x ++ "," ++ stringifyArr xs

/-- Comma-separated serialization of object properties. -/
def stringifyObj : List (String × JValue) → String
  | [] => ""
  | [(k, v)] => quoteJson k ++ ":" ++ jsonStringify v
  | (k, v) :: kvs => quoteJson k ++ ":" ++ jsonStringify v ++ "," ++ stringifyObj kvs

end

/-! ### `sanitizeArgs` (serializers.ts lines 228-253) -/

/-- The fixed sensitive-substring set `SENSITIVE_FIELDS` from serializers.ts. -/
def SENSITIVE_FIELDS : List String :=
  ["password", "token", "secret", "key", "api_key", "auth", "credential"]

/-- The fixed redaction marker. -/
def REDACTED_MARKER : String := "***REDACTED***"

/-- `SENSITIVE_FIELDS.some(field => key.toLowerCase().includes(field.toLowerCase()))`. -/
def isSensitiveKey (key : String) : Bool :=
  SENSITIVE_FIELDS.any fun f => includesJs (toLowerJs key) (toLowerJs f)

mutual

/-- `sanitizeArgs` from serializers.ts: non-objects and `null` pass through;
arrays map the sanitizer over their elements; objects redact the value of
every sensitive key and recurse into object-typed values of other keys. -/
def sanitizeArgs : JValue → JValue
  | .arr xs => .arr (sanitizeList xs)
  | .obj kvs => .obj (sanitizeObj kvs)
  | v => v

/-- `args.map(sanitizeArgs)` on an array. -/
def sanitizeList : List JValue → List JValue
  | [] => []
  | x :: xs => sanitizeArgs x :: sanitizeList xs

/-- The `for (const [key, value] of Object.entries(args))` loop body of
`sanitizeArgs`: sensitive keys get the marker; object-typed values recurse;
other values pass through. -/
def sanitizeObj : List (String × JValue) → List (String × JValue)
  | [] => []
  | (k, v) :: rest =>
    (k, if isSensitiveKey k then .vStr REDACTED_MARKER
        else if isJsObject v then sanitizeArgs v
        else v) :: sanitizeObj rest

end

/-- Is this value exactly the redaction marker string? -/
def isRedactedMarker : JValue → Bool
  | .vStr s => s == REDACTED_MARKER
  | _ => false

mutual

/-- The redaction postcondition: at every object nested anywhere inside the
value (including inside arrays), every property whose key matches a sensitive
substring holds exactly the redaction marker. -/
def allSensitiveRedacted : JValue → Bool
  | .arr xs => allSensitiveRedactedList xs
  | .obj kvs => allSensitiveRedactedObj kvs
  | _ => true

/-- `allSensitiveRedacted` over array elements. -/
def allSensitiveRedactedList : List JValue → Bool
  | [] => true
  | x :: xs => allSensitiveRedacted x && allSensitiveRedactedList xs

/-- `allSensitiveRedacted` over object properties. -/
def allSensitiveRedactedObj : List (String × JValue) → Bool
  | [] => true
  | (k, v) :: rest =>
    (if isSensitiveKey k then isRedactedMarker v else allSensitiveRedacted v)
      && allSensitiveRedactedObj rest

end

/-- A non-mapping leaf value (neither an object nor an array). -/
def isLeafJ : JValue → Bool
  | .arr _ => false
  | .obj _ => false
  | _ => true

/-! ### Configuration (config.ts / types.ts) -/

/-- `RotationConfig` from types.ts.  Numeric fields are `Int` because
environment overrides (`parseInt`) can supply arbitrary integers before
validation clamps them. -/
structure RotationConfig where
  enabled : Bool
  maxSizeMB : Int
  maxFiles : Int
  maxAgeDays : Int

/-- `BufferingConfig` from types.ts. -/
structure BufferingConfig where
  enabled : Bool
  flushIntervalMs : Int
  highWatermarkBytes : Int

/-- `LoggerConfig` from types.ts.  `verbosity` and `timestampFormat` are
strings because the environment-variable overrides in config.ts cast raw
strings into these fields before validation. -/
structure LoggerConfig where
  logDir : String
  filenamePattern : String
  rotation : RotationConfig
  verbosity : String
  excludedEvents : List String
  timestampFormat : String
  includeSessionContext : Bool
  buffering : BufferingConfig

/-- The ordered level list used by `shouldLogLevel` in config.ts. -/
def levelsList : List String := ["debug", "info", "warn", "error"]

/-- Model of JS `Array.prototype.indexOf` on a string list: first index,
`-1` when absent. -/
def jsIndexOfAux (x : String) : List String → Int → Int
  | [], _ => -1
  | y :: ys, i => if y = x then i else jsIndexOfAux x ys (i + 1)

/-- `levels.indexOf(x)` with JS semantics. -/
def jsIndexOf (l : List String) (x : String) : Int := jsIndexOfAux x l 0

/-- `shouldLogLevel` from config.ts lines 126-132: a record level passes when
its index in the level list is at least the index of the configured
verbosity (an unknown verbosity has index `-1`, letting everything pass). -/
def shouldLogLevel (config : LoggerConfig) (level : String) : Bool :=
  jsIndexOf levelsList level ≥ jsIndexOf levelsList config.verbosity

/-- The `validLevels` list of `validateConfig`. -/
def validLevels : List String := ["debug", "info", "warn", "error"]

/-- Statement 1 of `validateConfig` (config.ts lines 94-96): a `logDir`
starting with neither `/` nor `.` becomes `.opencode/logs`. -/
def clampLogDir (c : LoggerConfig) : LoggerConfig :=
  if !(startsWithJs c.logDir "/") && !(startsWithJs c.logDir ".") then
    { c with logDir := ".opencode/logs" } else c

/-- Statement 2 of `validateConfig` (config.ts line 98). -/
def clampMaxSizeMB (c : LoggerConfig) : LoggerConfig :=
  if c.rotation.maxSizeMB < 1 then
    { c with rotation := { c.rotation with maxSizeMB := 1 } } else c

/-- Statement 3 of `validateConfig` (config.ts line 99). -/
def clampMaxFiles (c : LoggerConfig) : LoggerConfig :=
  if c.rotation.maxFiles < 1 then
    { c with rotation := { c.rotation with maxFiles := 1 } } else c

/-- Statement 4 of `validateConfig` (config.ts line 100). -/
def clampMaxAgeDays (c : LoggerConfig) : LoggerConfig :=
  if c.rotation.maxAgeDays < 1 then
    { c with rotation := { c.rotation with maxAgeDays := 1 } } else c

/-- Statement 5 of `validateConfig` (config.ts line 101). -/
def clampFlushInterval (c : LoggerConfig) : LoggerConfig :=
  if c.buffering.flushIntervalMs < 10 then
    { c with buffering := { c.buffering with flushIntervalMs := 10 } } else c

/-- Statement 6 of `validateConfig` (config.ts line 102). -/
def clampHighWatermark (c : LoggerConfig) : LoggerConfig :=
  if c.buffering.highWatermarkBytes < 1024 then
    { c with buffering := { c.buffering with highWatermarkBytes := 1024 } } else c

/-- Statements 7-8 of `validateConfig` (config.ts lines 104-107): a verbosity
outside the valid level list is reset to `info`. -/
def clampVerbosity (c : LoggerConfig) : LoggerConfig :=
  if !(validLevels.contains c.verbosity) then { c with verbosity := "info" } else c

/-- `validateConfig` from config.ts lines 93-110: the statements above run in
source order, each mutating one field of the configuration in place. -/
def validateConfig (config : LoggerConfig) : LoggerConfig :=
  clampVerbosity (clampHighWatermark (clampFlushInterval (clampMaxAgeDays
    (clampMaxFiles (clampMaxSizeMB (clampLogDir config))))))

/-- The three timestamp renderings `getTimestamp` can pick from; stands for
the ambient `new Date()` at serialization time. -/
structure Instant where
  iso : String
  epochMs : Int
  locale : String

/-- `getTimestamp` from config.ts lines 112-124: chooses the rendering by
`timestampFormat`, with ISO as the `default` switch branch. -/
def getTimestamp (config : LoggerConfig) (now : Instant) : JValue :=
  if config.timestampFormat = "epoch" then .vNum now.epochMs
  else if config.timestampFormat = "local" then .vStr now.locale
  else .vStr now.iso

/-! ### Log records and serializers (types.ts / serializers.ts) -/

/-- `LogEntry` from types.ts.  `level` and `type` are strings (TS union
types); a missing `session_id` is `none` and is omitted from the serialized
line as `JSON.stringify` omits `undefined` properties. -/
structure LogEntry where
  timestamp : JValue
  level : String
  type : String
  session_id : Option String := none
  data : JValue

/-- An object property that is omitted when the value would be `undefined`
(as `JSON.stringify` drops such properties). -/
def optEntry (k : String) (v : Option JValue) : List (String × JValue) :=
  match v with
  | some x => [(k, x)]
  | none => []

/-- `truncateOutput` from serializers.ts lines 255-280: falsy and non-object
results pass through; an over-long string `output` field is replaced by its
prefix plus a `"... [truncated N chars]"` marker together with
`truncated: true` and `original_length` (an early return); otherwise, when
the whole serialized payload exceeds twice the threshold, the payload is
collapsed to a summary object.  The default threshold is 10000. -/
def truncateOutput (result : JValue) (maxLength : Nat := 10000) : JValue :=
  match result with
  | .obj kvs =>
    match getKey "output" kvs with
    | some (.vStr s) =>
      if lenJs s > maxLength then
        .obj (setKey "original_length" (.vNum (lenJs s))
          (setKey "truncated" (.vBool true)
            (setKey "output"
              (.vStr (takeJs s maxLength ++ "... [truncated " ++
                toString (lenJs s - maxLength) ++ " chars]")) kvs)))
      else
        let resultStr := jsonStringify (.obj kvs)
        if lenJs resultStr > maxLength * 2 then
          .obj [("_truncated", .vBool true),
                ("_original_size", .vNum (lenJs resultStr)),
                ("_summary", .vStr "Output was too large and was truncated"),
                ("preview", .vStr (takeJs resultStr maxLength ++ "..."))]
        else result
    | _ =>
      let resultStr := jsonStringify (.obj kvs)
      if lenJs resultStr > maxLength * 2 then
        .obj [("_truncated", .vBool true),
              ("_original_size", .vNum (lenJs resultStr)),
              ("_summary", .vStr "Output was too large and was truncated"),
              ("preview", .vStr (takeJs resultStr maxLength ++ "..."))]
      else result
  | .arr xs =>
    let resultStr := jsonStringify (.arr xs)
    if lenJs resultStr > maxLength * 2 then
      .obj [("_truncated", .vBool true),
            ("_original_size", .vNum (lenJs resultStr)),
            ("_summary", .vStr "Output was too large and was truncated"),
            ("preview", .vStr (takeJs resultStr maxLength ++ "..."))]
    else result
  | v => v

/-- `ToolEvent` from types.ts; `result` is the arbitrary object the after
hook received (or absent). -/
structure ToolEvent where
  tool : String
  args : JValue
  sessionId : Option String := none
  duration : Option Int := none
  result : Option JValue := none

/-- The `direction` argument of `serializeToolEvent`. -/
inductive Direction where
  | before
  | after
deriving DecidableEq

/-- Rendering of `Direction` as the strings the record stores. -/
def dirString : Direction → String
  | .before => "before"
  | .after => "after"

/-- `event.result?.error` as optional-chained property access. -/
def toolResultError (e : ToolEvent) : Option JValue :=
  e.result.bind fun r =>
    match r with
    | .obj kvs => getKey "error" kvs
    | _ => none

/-- Truthiness of an optional-chain result (`undefined` is falsy). -/
def jsTruthyO : Option JValue → Bool
  | none => false
  | some v => jsTruthy v

/-- `serializeToolEvent` from serializers.ts lines 6-31: level is `error` for
an after record whose result carries a truthy `error` field, else `info`; the
verbosity gate drops the record; otherwise a `tool_use` record is built
(before: sanitized input, status pending; after: truncated output, duration,
status success/error). -/
def serializeToolEvent (event : ToolEvent) (direction : Direction)
    (config : LoggerConfig) (now : Instant) : Option LogEntry :=
  let level := if direction = .after && jsTruthyO (toolResultError event) then "error" else "info"
  if !shouldLogLevel config level then none
  else some
    { timestamp := getTimestamp config now
      level := level
      type := "tool_use"
      session_id := event.sessionId
      data := .obj
        ([("tool", .vStr event.tool), ("direction", .vStr (dirString direction))] ++
          optEntry "duration_ms"
            (if direction = .after then event.duration.map JValue.vNum else none) ++
          optEntry "input"
            (if direction = .before then some (sanitizeArgs event.args) else none) ++
          optEntry "output"
            (if direction = .after then event.result.map (truncateOutput · 10000) else none) ++
          [("status", .vStr (if direction = .after then
              (if jsTruthyO (toolResultError event) then "error" else "success")
            else "pending"))]) }

/-- The `noisyEventTypes` pre-filter list of `serializeSystemEvent`. -/
def noisyEventTypes : List String :=
  ["heartbeat", "ping", "pong", "keepalive", "status_check", "cursor", "viewport",
   "render", "draw", "update_cursor", "focus_change", "selection_change",
   "mouse_move", "key_press", "input_idle", "activity_idle", "typing_indicator",
   "presence_update", "notification_dismiss", "scroll", "resize", "hover",
   "click", "keydown", "keyup", "mousemove", "mouseup", "mousedown",
   "touchstart", "touchend", "touchmove", "visibility_change", "page_hide",
   "page_show", "beforeunload", "unload", "online", "offline", "blur", "focus",
   "activate", "deactivate"]

/-- The per-value test inside `hasAnyValue`:
`v !== null && v !== undefined && v !== '' && !(typeof v === 'object' &&
Object.keys(v).length === 0)`. -/
def countsAsValue (v : JValue) : Bool :=
  !(match v with
    | .vNull => true
    | .vStr s => s == ""
    | _ => false) &&
  !(isJsObject v && jsKeyCount v == 0)

/-- The `hasAnyValue` check of `serializeSystemEvent`: some own value is
neither `null` nor the empty string nor an empty object/array. -/
def hasAnyValue (payload : JValue) : Bool :=
  (jsValues payload).any countsAsValue

/-- The string guard of `serializeSystemEvent`:
`typeof payload === 'string' && payload.trim().length === 0`. -/
def isBlankStringPayload : JValue → Bool
  | .vStr s => lenJs (trimJs s) == 0
  | _ => false

/-- `serializeSystemEvent` from serializers.ts lines 33-135: excluded events
and sub-debug verbosity drop the record; falsy, key-less, value-less and
whitespace-only payloads drop the record; known noisy event names drop the
record; otherwise a debug-level `system` record with the sanitized payload is
produced. -/
def serializeSystemEvent (eventType : String) (payload : JValue)
    (config : LoggerConfig) (sessionId : Option String) (now : Instant) : Option LogEntry :=
  if config.excludedEvents.contains eventType then none
  else if !shouldLogLevel config "debug" then none
  else if !jsTruthy payload then none
  else if isJsObject payload && jsKeyCount payload == 0 then none
  else if isJsObject payload && !hasAnyValue payload then none
  else if isBlankStringPayload payload then none
  else if noisyEventTypes.contains (toLowerJs eventType) then none
  else some
    { timestamp := getTimestamp config now
      level := "debug"
      type := "system"
      session_id := sessionId
      data := .obj [("eventType", .vStr eventType), ("payload", sanitizeArgs payload)] }

/-- The passively-read fields of the host `client` object that
`serializeSessionStart` inspects.  `Object.keys` introspection of the raw
client object is carried as the abstract key lists. -/
structure Client where
  sessionId : Option String := none
  sessionName : Option String := none
  projectName : Option String := none
  modelName : Option String := none
  clientKeys : List String := []
  sessionKeys : List String := []
  projectKeys : List String := []

/-- Ambient process state (`process.cwd()`, `process.argv`, ...) read by the
session serializers. -/
structure ProcEnv where
  cwd : String
  argv : List String
  nodeVersion : String
  platform : String
  uptimeSeconds : Int

/-- JS `a || b` on optional strings: an absent or empty left operand falls
through to the right. -/
def jsOrStr (a b : Option String) : Option String :=
  match a with
  | some s => if s = "" then b else some s
  | none => b

/-- The session-name fallback chain of `serializeSessionStart`:
`session.name || project.name || session.id.substring(0,8) ||
cwd.split('/').pop() || 'unknown'`. -/
def sessionNameOf (client : Client) (cwd : String) : String :=
  (jsOrStr client.sessionName
    (jsOrStr client.projectName
      (jsOrStr (client.sessionId.map fun s => takeJs s 8)
        (jsOrStr (splitJs cwd '/').getLast? none)))).getD "unknown"

/-- `serializeSessionStart` from serializers.ts lines 137-165: always returns
an info-level `system` record describing the session (no verbosity gate). -/
def serializeSessionStart (client : Client) (config : LoggerConfig)
    (env : ProcEnv) (now : Instant) : LogEntry :=
  { timestamp := getTimestamp config now
    level := "info"
    type := "system"
    session_id := client.sessionId
    data := .obj
      ([("event", .vStr "session_start"),
        ("session_name", .vStr (sessionNameOf client env.cwd))] ++
        optEntry "model" (client.modelName.map JValue.vStr) ++
        [("cwd", .vStr env.cwd),
         ("args", .arr (env.argv.map JValue.vStr)),
         ("node_version", .vStr env.nodeVersion),
         ("platform", .vStr env.platform),
         ("client_keys", .arr (client.clientKeys.map JValue.vStr)),
         ("session_keys", .arr (client.sessionKeys.map JValue.vStr)),
         ("project_keys", .arr (client.projectKeys.map JValue.vStr))]) }

/-- `serializeSessionEnd` from serializers.ts lines 167-183: always returns an
info-level `system` record (no verbosity gate). -/
def serializeSessionEnd (client : Client) (config : LoggerConfig)
    (env : ProcEnv) (now : Instant) (exitCode : Option Int := none) : LogEntry :=
  { timestamp := getTimestamp config now
    level := "info"
    type := "system"
    session_id := client.sessionId
    data := .obj
      ([("event", .vStr "session_end")] ++
        optEntry "exit_code" (exitCode.map JValue.vNum) ++
        [("uptime_seconds", .vNum env.uptimeSeconds)]) }

/-- `serializeLLMEvent` from serializers.ts lines 185-206: dropped only when
`llm` or `completion` is excluded; otherwise an info-level `llm` record (no
verbosity gate). -/
def serializeLLMEvent (event : JValue) (config : LoggerConfig)
    (sessionId : Option String) (now : Instant) : Option LogEntry :=
  if config.excludedEvents.contains "llm" || config.excludedEvents.contains "completion" then none
  else some
    { timestamp := getTimestamp config now
      level := "info"
      type := "llm"
      session_id := sessionId
      data := .obj
        (optEntry "event_type" (match event with | .obj kvs => getKey "type" kvs | _ => none) ++
         optEntry "model" (match event with | .obj kvs => getKey "model" kvs | _ => none) ++
         optEntry "tokens" (match event with | .obj kvs => getKey "tokens" kvs | _ => none) ++
         optEntry "latency_ms" (match event with | .obj kvs => getKey "latency" kvs | _ => none)) }

/-- The fields of a JS `Error` that `serializeError` reads. -/
structure ErrInfo where
  name : String
  message : String
  stack : Option String := none

/-- `serializeError` from serializers.ts lines 208-226: always returns an
error-level record (no gate of any kind). -/
def serializeError (error : ErrInfo) (context : String) (config : LoggerConfig)
    (sessionId : Option String) (now : Instant) : LogEntry :=
  { timestamp := getTimestamp config now
    level := "error"
    type := "error"
    session_id := sessionId
    data := .obj
      ([("context", .vStr context),
        ("error_name", .vStr error.name),
        ("error_message", .vStr error.message)] ++
        optEntry "error_stack" (error.stack.map JValue.vStr)) }

/-! ### The rotator (rotator.ts: `LogRotator`) -/

/-- Metadata of one file in the archive directory, as `cleanup` and
`getArchivedFiles` read it from `readdirSync` plus `statSync` (name within
the directory, modification time in epoch milliseconds, byte size). -/
structure FSFile where
  name : String
  mtime : Int
  size : Nat
deriving DecidableEq

/-- `statSync` data of the active log file. -/
structure ActiveStat where
  size : Nat
  mtime : Int
deriving DecidableEq

/-- The slice of the filesystem the rotator touches: the active log file at
the current path (absent when `statSync` would throw) and the listing of
`<logDir>/archive`. -/
structure FS where
  active : Option ActiveStat
  archive : List FSFile
deriving DecidableEq

/-- Node `path.basename` on the POSIX paths the plugin builds: the last
`/`-separated component. -/
def basenameJs (p : String) : String := ((splitJs p '/').getLast?).getD p

/-- Stable insertion (newest first, ties keep earlier-listed files first)
modelling the stable JS `Array.prototype.sort` with comparator
`(a, b) => b.mtime - a.mtime`. -/
def insertByMtimeDesc (f : FSFile) : List FSFile → List FSFile
  | [] => [f]
  | g :: gs => if g.mtime ≤ f.mtime then f :: g :: gs else g :: insertByMtimeDesc f gs

/-- Sort newest first (stable), as `cleanup` and `getArchivedFiles` sort. -/
def sortByMtimeDesc : List FSFile → List FSFile
  | [] => []
  | f :: fs => insertByMtimeDesc f (sortByMtimeDesc fs)

/-- JS `Array.prototype.slice(i)` including the negative-index case. -/
def jsSlice (l : List FSFile) (i : Int) : List FSFile :=
  if 0 ≤ i then l.drop i.toNat else l.drop (l.length - (-i).toNat)

/-- `LogRotator.cleanup` (rotator.ts lines 135-193) as a function from the
archive listing to the surviving archive listing.  `cutoff` is the epoch
moment `maxAgeDays` before the ambient `new Date()`.  The listing is filtered
to names ending `.ndjson`, stat-ed and sorted newest first; everything the
count cap overflows and everything older than the cutoff is unlinked
(deletion is by name, names in one directory being unique). -/
def cleanupArchive (config : LoggerConfig) (cutoff : Int)
    (archive : List FSFile) : List FSFile :=
  if !config.rotation.enabled then archive
  else
    let files := sortByMtimeDesc (archive.filter fun f => endsWithJs f.name ".ndjson")
    let overflow := if (files.length : Int) > config.rotation.maxFiles then
      jsSlice files config.rotation.maxFiles else []
    let expired := files.filter fun f => f.mtime < cutoff
    let deleteNames := (overflow ++ expired).map FSFile.name
    archive.filter fun f => !(deleteNames.contains f.name)

/-- `LogRotator.getArchivedFiles` (rotator.ts lines 204-233): the archive
listing filtered to `.ndjson` names and sorted newest first. -/
def getArchivedFilesM (archive : List FSFile) : List FSFile :=
  sortByMtimeDesc (archive.filter fun f => endsWithJs f.name ".ndjson")

/-- The archive filename `rotate` builds: the base name with the first
`.ndjson` replaced by `-<timestamp>.ndjson`. -/
def archiveFilename (currentPath ts : String) : String :=
  replaceOnce (basenameJs currentPath) ".ndjson" ("-" ++ ts ++ ".ndjson")

/-- `LogRotator.rotate` (rotator.ts lines 99-133) on the modelled filesystem:
renames the active file (keeping its stat data) into the archive under the
timestamped name, runs `cleanup`, and returns the original path as the
reinitialization signal.  The `rotationInProgress` re-entrancy flag is `true`
only during this synchronous body, so the single-threaded model threads it as
the caller's `inProgress` argument. -/
def rotate (config : LoggerConfig) (ts : String) (cutoff : Int)
    (currentPath : String) (fs : FS) : Option String × FS :=
  let fs1 : FS := match fs.active with
    | some st =>
      { active := none,
        archive := fs.archive ++ [⟨archiveFilename currentPath ts, st.mtime, st.size⟩] }
    | none => fs
  (some currentPath, { fs1 with archive := cleanupArchive config cutoff fs1.archive })

/-- `LogRotator.checkRotation` (rotator.ts lines 80-97): nothing when
rotation is disabled or in progress or `statSync` fails; rotates when the
byte size exceeds `maxSizeMB` megabytes.  The JS float comparison
`size / (1024*1024) > maxSizeMB` is the exact rational comparison
`size > maxSizeMB * 1048576`. -/
def checkRotation (config : LoggerConfig) (inProgress : Bool) (ts : String)
    (cutoff : Int) (currentPath : String) (fs : FS) : Option String × FS :=
  if !config.rotation.enabled || inProgress then (none, fs)
  else
    match fs.active with
    | none => (none, fs)
    | some st =>
      if (st.size : Int) > config.rotation.maxSizeMB * (1024 * 1024) then
        rotate config ts cutoff currentPath fs
      else (none, fs)

/-! ### The logging engine (logger.ts: `ActivityLogger`) -/

/-- The `LogEntry` rendered as the JSON object `JSON.stringify(entry)`
serializes (a missing `session_id` is omitted, as `undefined` would be). -/
def entryToJValue (e : LogEntry) : JValue :=
  .obj ([("timestamp", e.timestamp), ("level", .vStr e.level), ("type", .vStr e.type)] ++
    optEntry "session_id" (e.session_id.map JValue.vStr) ++
    [("data", e.data)])

/-- The mutable state of an `ActivityLogger`: whether the write stream is
open, the in-memory line buffer, whether the periodic flush timer is armed,
and the closing flag.  Disk writes appear as the `List String` effect
component of each operation (each element one write call's payload), the
chained write queue being collapsed to its serialized order. -/
structure LoggerState where
  streamOpen : Bool
  buffer : List String
  flushTimer : Bool
  isClosing : Bool
deriving DecidableEq

/-- `ActivityLogger.flush` (logger.ts): empty buffer or missing stream is a
no-op; otherwise the joined buffer is enqueued as one ordered write and the
buffer cleared. -/
def flushM (s : LoggerState) : LoggerState × List String :=
  if s.buffer.isEmpty || !s.streamOpen then (s, [])
  else ({ s with buffer := [] }, [String.join s.buffer])

/-- `ActivityLogger.log` (logger.ts lines 492-517 of the concatenated
source): returns immediately when closing; applies the verbosity gate;
defaults the timestamp; then either buffers the line (flushing past the high
watermark) or writes it immediately when buffering is disabled. -/
def logM (config : LoggerConfig) (entry : LogEntry) (now : Instant)
    (s : LoggerState) : LoggerState × List String :=
  if s.isClosing then (s, [])
  else if !shouldLogLevel config entry.level then (s, [])
  else
    let e := if jsTruthy entry.timestamp then entry
      else { entry with timestamp := getTimestamp config now }
    let line := jsonStringify (entryToJValue e) ++ "\n"
    if config.buffering.enabled then
      let s1 := { s with buffer := s.buffer ++ [line] }
      if ((s1.buffer.map lenJs).sum : Int) > config.buffering.highWatermarkBytes then
        flushM s1
      else (s1, [])
    else if s.streamOpen then (s, [line])
    else (s, [])

/-- `ActivityLogger.close` (logger.ts lines 575-598 of the concatenated
source): a second call returns at the `isClosing` guard; the first call sets
the flag, stops the timer, flushes, awaits the queue, and ends the stream. -/
def closeM (s : LoggerState) : LoggerState × List String :=
  if s.isClosing then (s, [])
  else
    let s1 := { s with isClosing := true, flushTimer := false }
    let (s2, w) := flushM s1
    ({ s2 with streamOpen := false }, w)

/-! ### Concrete sample inputs used by witnesses and counterexamples -/

/-- A well-formed configuration equal to `DEFAULT_CONFIG` in config.ts. -/
def sampleCfg : LoggerConfig :=
  { logDir := ".opencode/logs"
    filenamePattern := "agent-\x7bYYYY-MM-DD\x7d.ndjson"
    rotation := { enabled := true, maxSizeMB := 100, maxFiles := 10, maxAgeDays := 30 }
    verbosity := "info"
    excludedEvents := ["token_usage", "heartbeat"]
    timestampFormat := "ISO"
    includeSessionContext := true
    buffering := { enabled := true, flushIntervalMs := 100, highWatermarkBytes := 16384 } }

/-- A sample serialization instant. -/
def sampleNow : Instant :=
  { iso := "2025-01-30T20:45:30.123Z", epochMs := 1738270730123, locale := "1/30/2025, 8:45:30 PM" }

/-- A sample host client context. -/
def sampleClient : Client :=
  { sessionId := some "ses_abc123", sessionName := some "demo", modelName := some "m" }

/-- A sample ambient process state. -/
def sampleEnv : ProcEnv :=
  { cwd := "/home/user/proj", argv := ["node", "opencode"], nodeVersion := "v20.0.0",
    platform := "linux", uptimeSeconds := 12 }

/-- A configuration accepting debug records, with no exclusions. -/
def cfgDebug : LoggerConfig := { sampleCfg with verbosity := "debug", excludedEvents := [] }

/-- A configuration whose numeric fields and verbosity are all out of range. -/
def cfgBad : LoggerConfig :=
  { sampleCfg with
    logDir := "logs"
    verbosity := "verbose"
    rotation := { enabled := true, maxSizeMB := 0, maxFiles := -2, maxAgeDays := 0 }
    buffering := { enabled := true, flushIntervalMs := 1, highWatermarkBytes := 8 } }

/-- The property list of an object value (`[]` for non-objects). -/
def objProps : JValue → List (String × JValue)
  | .obj kvs => kvs
  | _ => []

/-- A tool result whose `output` string (9000 chars) stays under the
truncation threshold while the whole serialized payload far exceeds twice
the threshold. -/
def bigPayload : List (String × JValue) :=
  [("output", .vStr (repChar 9000 'a')), ("data", .vStr (repChar 30000 'b'))]

/-- A single value that the system-event noise filter counts as empty:
`null`, the empty string, or a key-less object/array. -/
def emptyishValue : JValue → Bool
  | .vNull => true
  | .vStr s => s == ""
  | .obj [] => true
  | .arr [] => true
  | _ => false

/-- The amended contentless-payload condition for C7: `null`, an empty or
whitespace-only string, or an object/array all of whose values are `null`,
empty strings, or key-less objects (a whitespace-only string *value* inside
an object does not count as empty — that is the correction). -/
def droppablePayload : JValue → Bool
  | .vNull => true
  | .vStr s => trimJs s == ""
  | .obj kvs => kvs.all fun kv => emptyishValue kv.2
  | .arr xs => xs.all emptyishValue
  | _ => false

theorem sanitizeArgs_example : sanitizeArgs (.obj [("password", .vStr "x"), ("a", .vStr "y")])
    = .obj [("password", .vStr REDACTED_MARKER), ("a", .vStr "y")] := by
  rfl

/-- A value that is not object-typed satisfies the redaction postcondition
vacuously (it holds no keys). -/
theorem allSensitiveRedacted_of_not_object (v : JValue) (h : isJsObject v = false) :
    allSensitiveRedacted v = true := by
  cases v <;> simp_all [isJsObject, allSensitiveRedacted]

mutual

/-- After sanitization, every sensitive key anywhere in the value holds the
redaction marker. -/
theorem sanitizeArgs_redacted : (v : JValue) → allSensitiveRedacted (sanitizeArgs v) = true
  | .vNull => rfl
  | .vBool _ => rfl
  | .vNum _ => rfl
  | .vStr _ => rfl
  | .arr xs => by
    simpa [sanitizeArgs, allSensitiveRedacted] using sanitizeList_redacted xs
  | .obj kvs => by
    simpa [sanitizeArgs, allSensitiveRedacted] using sanitizeObj_redacted kvs

/-- Array case of `sanitizeArgs_redacted`. -/
theorem sanitizeList_redacted : (xs : List JValue) →
    allSensitiveRedactedList (sanitizeList xs) = true
  | [] => rfl
  | x :: xs => by
    simp only [sanitizeList, allSensitiveRedactedList, Bool.and_eq_true]
    exact ⟨sanitizeArgs_redacted x, sanitizeList_redacted xs⟩

/-- Object case of `sanitizeArgs_redacted`. -/
theorem sanitizeObj_redacted : (kvs : List (String × JValue)) →
    allSensitiveRedactedObj (sanitizeObj kvs) = true
  | [] => rfl
  | (k, v) :: rest => by
    simp only [sanitizeObj, allSensitiveRedactedObj, Bool.and_eq_true]
    refine ⟨?_, sanitizeObj_redacted rest⟩
    by_cases hs : isSensitiveKey k
    · simp [hs, isRedactedMarker]
    · by_cases ho : isJsObject v
      · simp [hs, ho, sanitizeArgs_redacted v]
      · simp only [hs, if_false, ho, Bool.false_eq_true]
        simp only [Bool.not_eq_true] at ho
        simp [allSensitiveRedacted_of_not_object v ho]

end

/-- C1: `sanitizeArgs` replaces the value of every mapping key whose lowercase
form contains a sensitive substring with the fixed marker `***REDACTED***`,
recursing into nested mappings and array elements, so that every sensitive key
anywhere in the result holds exactly the marker (hence never its original
value, unless that value already was the marker); non-mapping leaf values pass
through unchanged. -/
theorem sanitizeArgs_redacts_everywhere (v : JValue) :
    allSensitiveRedacted (sanitizeArgs v) = true ∧
      (isLeafJ v = true → sanitizeArgs v = v) := by
  refine ⟨sanitizeArgs_redacted v, fun h => ?_⟩
  cases v <;> simp_all [isLeafJ, sanitizeArgs]

/-- Witness for C1 at concrete inputs: a nested object with sensitive keys is
fully redacted, and a plain string leaf passes through unchanged. -/
theorem sanitizeArgs_redacts_everywhere_witness :
    allSensitiveRedacted (sanitizeArgs (JValue.obj
        [("Password", JValue.vStr "hunter2"),
         ("nested", JValue.obj [("api_key", JValue.vStr "k"), ("ok", JValue.vNum 3)])])) = true ∧
      sanitizeArgs (JValue.vStr "plain") = JValue.vStr "plain" :=
  ⟨(sanitizeArgs_redacts_everywhere _).1,
   (sanitizeArgs_redacts_everywhere (JValue.vStr "plain")).2 rfl⟩

/-- Any level's index in the four-element level list is at most 3. -/
theorem jsIndexOf_levels_le (x : String) : jsIndexOf levelsList x ≤ 3 := by
  simp only [jsIndexOf, levelsList, jsIndexOfAux]
  split_ifs <;> norm_num

/-- The maximum level `error` passes the verbosity gate for every
configuration, including unvalidated ones. -/
theorem shouldLogLevel_error (config : LoggerConfig) :
    shouldLogLevel config "error" = true := by
  have h := jsIndexOf_levels_le config.verbosity
  have he : jsIndexOf levelsList "error" = 3 := by decide
  simp [shouldLogLevel, he]
  omega

/-- C2 counterexample: with verbosity `error`, `serializeSessionStart` still
returns (accepts) a record of level `info`, a level strictly below the
configured threshold — the claimed gate does not exist on this entry point. -/
theorem sessionStart_level_below_threshold :
    (serializeSessionStart sampleClient { sampleCfg with verbosity := "error" }
        sampleEnv sampleNow).level = "info" ∧
      shouldLogLevel { sampleCfg with verbosity := "error" } "info" = false :=
  ⟨rfl, by decide⟩

/-- C2 (amended): every record accepted by `serializeToolEvent`,
`serializeSystemEvent` or `serializeError` has a level that passes
`shouldLogLevel` for the configured verbosity; the session-start,
session-end and LLM serializers apply no verbosity gate (the engine's `log`
applies it before writing instead). -/
theorem serializer_verbosity_gate_amended (config : LoggerConfig) :
    (∀ (event : ToolEvent) (direction : Direction) (now : Instant) (e : LogEntry),
        serializeToolEvent event direction config now = some e →
        shouldLogLevel config e.level = true) ∧
    (∀ (ty : String) (payload : JValue) (sid : Option String) (now : Instant) (e : LogEntry),
        serializeSystemEvent ty payload config sid now = some e →
        shouldLogLevel config e.level = true) ∧
    (∀ (err : ErrInfo) (ctx : String) (sid : Option String) (now : Instant),
        shouldLogLevel config (serializeError err ctx config sid now).level = true) := by
  refine ⟨?_, ?_, ?_⟩
  · intro event direction now e h
    unfold serializeToolEvent at h
    set level := if direction = Direction.after && jsTruthyO (toolResultError event)
      then "error" else "info" with hlvl
    by_cases hg : shouldLogLevel config level = true
    · simp only [hg, Bool.not_true, Bool.false_eq_true, if_false, Option.some.injEq] at h
      rw [← h]
      exact hg
    · simp only [Bool.not_eq_true] at hg
      simp [hg] at h
  · intro ty payload sid now e h
    simp only [serializeSystemEvent, Bool.not_eq_true', Bool.not_eq_true,
      ite_eq_iff, reduceCtorEq, false_and, Option.some.injEq] at h
    rcases h with h | h
    · exact absurd h.2 (by simp)
    rcases h.2 with h2 | h2
    · exact absurd h2.2 (by simp)
    rcases h2.2 with h3 | h3
    · exact absurd h3.2 (by simp)
    rcases h3.2 with h4 | h4
    · exact absurd h4.2 (by simp)
    rcases h4.2 with h5 | h5
    · exact absurd h5.2 (by simp)
    rcases h5.2 with h6 | h6
    · exact absurd h6.2 (by simp)
    rcases h6.2 with h7 | h7
    · exact absurd h7.2 (by simp)
    have he := h7.2
    rw [← he]
    simpa using h2.1
  · intro err ctx sid now
    exact shouldLogLevel_error config

/-- Witness for the amended C2: a concrete system event accepted under a
debug configuration indeed carries a level passing the gate. -/
theorem serializer_verbosity_gate_amended_witness :
    shouldLogLevel cfgDebug "debug" = true :=
  (serializer_verbosity_gate_amended cfgDebug).2.1 "custom_metric" (.vStr "x") none sampleNow
    { timestamp := .vStr sampleNow.iso
      level := "debug"
      type := "system"
      session_id := none
      data := .obj [("eventType", .vStr "custom_metric"), ("payload", .vStr "x")] }
    rfl

/-- C10: configuration validation replaces a `logDir` starting with neither
`/` nor `.` by the default `.opencode/logs`, clamps `maxSizeMB`, `maxFiles`
and `maxAgeDays` to at least 1, `flushIntervalMs` to at least 10 and
`highWatermarkBytes` to at least 1024, and resets an unrecognized verbosity
to `info`. -/
theorem clampLogDir_spec (c : LoggerConfig) :
    (clampLogDir c).rotation = c.rotation ∧ (clampLogDir c).buffering = c.buffering ∧
      (clampLogDir c).verbosity = c.verbosity ∧
      (startsWithJs c.logDir "/" = false → startsWithJs c.logDir "." = false →
        (clampLogDir c).logDir = ".opencode/logs") := by
  unfold clampLogDir
  split_ifs with h <;> simp_all

theorem clampMaxSizeMB_spec (c : LoggerConfig) :
    (clampMaxSizeMB c).logDir = c.logDir ∧ (clampMaxSizeMB c).buffering = c.buffering ∧
      (clampMaxSizeMB c).verbosity = c.verbosity ∧
      (clampMaxSizeMB c).rotation.maxFiles = c.rotation.maxFiles ∧
      (clampMaxSizeMB c).rotation.maxAgeDays = c.rotation.maxAgeDays ∧
      1 ≤ (clampMaxSizeMB c).rotation.maxSizeMB := by
  unfold clampMaxSizeMB
  split_ifs with h <;> refine ⟨rfl, rfl, rfl, rfl, rfl, ?_⟩ <;> first | omega | simp

theorem clampMaxFiles_spec (c : LoggerConfig) :
    (clampMaxFiles c).logDir = c.logDir ∧ (clampMaxFiles c).buffering = c.buffering ∧
      (clampMaxFiles c).verbosity = c.verbosity ∧
      (clampMaxFiles c).rotation.maxSizeMB = c.rotation.maxSizeMB ∧
      (clampMaxFiles c).rotation.maxAgeDays = c.rotation.maxAgeDays ∧
      1 ≤ (clampMaxFiles c).rotation.maxFiles := by
  unfold clampMaxFiles
  split_ifs with h <;> refine ⟨rfl, rfl, rfl, rfl, rfl, ?_⟩ <;> first | omega | simp

theorem clampMaxAgeDays_spec (c : LoggerConfig) :
    (clampMaxAgeDays c).logDir = c.logDir ∧ (clampMaxAgeDays c).buffering = c.buffering ∧
      (clampMaxAgeDays c).verbosity = c.verbosity ∧
      (clampMaxAgeDays c).rotation.maxSizeMB = c.rotation.maxSizeMB ∧
      (clampMaxAgeDays c).rotation.maxFiles = c.rotation.maxFiles ∧
      1 ≤ (clampMaxAgeDays c).rotation.maxAgeDays := by
  unfold clampMaxAgeDays
  split_ifs with h <;> refine ⟨rfl, rfl, rfl, rfl, rfl, ?_⟩ <;> first | omega | simp

theorem clampFlushInterval_spec (c : LoggerConfig) :
    (clampFlushInterval c).logDir = c.logDir ∧
      (clampFlushInterval c).rotation = c.rotation ∧
      (clampFlushInterval c).verbosity = c.verbosity ∧
      (clampFlushInterval c).buffering.highWatermarkBytes = c.buffering.highWatermarkBytes ∧
      10 ≤ (clampFlushInterval c).buffering.flushIntervalMs := by
  unfold clampFlushInterval
  split_ifs with h <;> refine ⟨rfl, rfl, rfl, rfl, ?_⟩ <;> first | omega | simp

theorem clampHighWatermark_spec (c : LoggerConfig) :
    (clampHighWatermark c).logDir = c.logDir ∧
      (clampHighWatermark c).rotation = c.rotation ∧
      (clampHighWatermark c).verbosity = c.verbosity ∧
      (clampHighWatermark c).buffering.flushIntervalMs = c.buffering.flushIntervalMs ∧
      1024 ≤ (clampHighWatermark c).buffering.highWatermarkBytes := by
  unfold clampHighWatermark
  split_ifs with h <;> refine ⟨rfl, rfl, rfl, rfl, ?_⟩ <;> first | omega | simp

theorem clampVerbosity_spec (c : LoggerConfig) :
    (clampVerbosity c).logDir = c.logDir ∧ (clampVerbosity c).rotation = c.rotation ∧
      (clampVerbosity c).buffering = c.buffering ∧
      (validLevels.contains c.verbosity = false → (clampVerbosity c).verbosity = "info") := by
  unfold clampVerbosity
  split_ifs with h <;> simp_all

/-- C10: configuration validation replaces a `logDir` starting with neither
`/` nor `.` by the default `.opencode/logs`, clamps `maxSizeMB`, `maxFiles`
and `maxAgeDays` to at least 1, `flushIntervalMs` to at least 10 and
`highWatermarkBytes` to at least 1024, and resets an unrecognized verbosity
to `info`. -/
theorem validateConfig_clamps (c : LoggerConfig) :
    (startsWithJs c.logDir "/" = false → startsWithJs c.logDir "." = false →
      (validateConfig c).logDir = ".opencode/logs") ∧
    1 ≤ (validateConfig c).rotation.maxSizeMB ∧
    1 ≤ (validateConfig c).rotation.maxFiles ∧
    1 ≤ (validateConfig c).rotation.maxAgeDays ∧
    10 ≤ (validateConfig c).buffering.flushIntervalMs ∧
    1024 ≤ (validateConfig c).buffering.highWatermarkBytes ∧
    (validLevels.contains c.verbosity = false → (validateConfig c).verbosity = "info") := by
  obtain ⟨s1, s2, s3, s4⟩ := clampLogDir_spec c
  obtain ⟨r1, r2, r3, r4, r5, r6⟩ := clampMaxSizeMB_spec (clampLogDir c)
  obtain ⟨q1, q2, q3, q4, q5, q6⟩ :=
    clampMaxFiles_spec (clampMaxSizeMB (clampLogDir c))
  obtain ⟨p1, p2, p3, p4, p5, p6⟩ :=
    clampMaxAgeDays_spec (clampMaxFiles (clampMaxSizeMB (clampLogDir c)))
  obtain ⟨n1, n2, n3, n4, n5⟩ :=
    clampFlushInterval_spec (clampMaxAgeDays (clampMaxFiles (clampMaxSizeMB (clampLogDir c))))
  obtain ⟨m1, m2, m3, m4, m5⟩ :=
    clampHighWatermark_spec (clampFlushInterval (clampMaxAgeDays (clampMaxFiles
      (clampMaxSizeMB (clampLogDir c)))))
  obtain ⟨l1, l2, l3, l4⟩ :=
    clampVerbosity_spec (clampHighWatermark (clampFlushInterval (clampMaxAgeDays
      (clampMaxFiles (clampMaxSizeMB (clampLogDir c))))))
  unfold validateConfig
  refine ⟨?_, ?_, ?_, ?_, ?_, ?_, ?_⟩
  · intro h1 h2
    rw [l1, m1, n1, p1, q1, r1]
    exact s4 h1 h2
  · rw [l2, m2, n2, p4, q4]
    exact r6
  · rw [l2, m2, n2, p5]
    exact q6
  · rw [l2, m2, n2]
    exact p6
  · rw [l3, m4]
    exact n5
  · rw [l3]
    exact m5
  · intro h
    apply l4
    rw [m3, n3, p3, q3, r3, s3]
    exact h

/-- Witness for C10 on a fully out-of-range configuration. -/
theorem validateConfig_clamps_witness :
    (validateConfig cfgBad).logDir = ".opencode/logs" ∧
      1 ≤ (validateConfig cfgBad).rotation.maxSizeMB ∧
      1 ≤ (validateConfig cfgBad).rotation.maxFiles ∧
      1 ≤ (validateConfig cfgBad).rotation.maxAgeDays ∧
      10 ≤ (validateConfig cfgBad).buffering.flushIntervalMs ∧
      1024 ≤ (validateConfig cfgBad).buffering.highWatermarkBytes ∧
      (validateConfig cfgBad).verbosity = "info" :=
  ⟨(validateConfig_clamps cfgBad).1 (by decide) (by decide),
   (validateConfig_clamps cfgBad).2.1,
   (validateConfig_clamps cfgBad).2.2.1,
   (validateConfig_clamps cfgBad).2.2.2.1,
   (validateConfig_clamps cfgBad).2.2.2.2.1,
   (validateConfig_clamps cfgBad).2.2.2.2.2.1,
   (validateConfig_clamps cfgBad).2.2.2.2.2.2 (by decide)⟩

/-- `flush` preserves the closing flag. -/
theorem flushM_isClosing (s : LoggerState) : (flushM s).1.isClosing = s.isClosing := by
  unfold flushM
  split_ifs <;> rfl

/-- A closed logger stays closed with no effect under `close`. -/
theorem closeM_of_closed (s : LoggerState) (h : s.isClosing = true) :
    closeM s = (s, []) := by
  unfold closeM
  simp [h]

/-- A closed logger ignores `log` with no effect. -/
theorem logM_of_closed (config : LoggerConfig) (entry : LogEntry) (now : Instant)
    (s : LoggerState) (h : s.isClosing = true) :
    logM config entry now s = (s, []) := by
  unfold logM
  simp [h]

/-- After `close`, the closing flag is set. -/
theorem closeM_sets_isClosing (s : LoggerState) : (closeM s).1.isClosing = true := by
  unfold closeM
  split_ifs with h
  · exact h
  · simp only
    rw [flushM_isClosing]

/-- C8: a second `close` after a first one performs no additional writes and
leaves the state unchanged, and every `log` call after a `close` is a no-op
producing no output. -/
theorem close_idempotent_log_noop (s : LoggerState) (config : LoggerConfig)
    (entry : LogEntry) (now : Instant) :
    closeM (closeM s).1 = ((closeM s).1, []) ∧
      logM config entry now (closeM s).1 = ((closeM s).1, []) :=
  ⟨closeM_of_closed _ (closeM_sets_isClosing s),
   logM_of_closed config entry now _ (closeM_sets_isClosing s)⟩

/-- C5: `checkRotation` returns nothing when rotation is disabled or already
in progress; when enabled, not in progress, and the active file's size
exceeds `maxSizeMB` megabytes, it performs the rotation (the active file is
renamed into the archive, which is then cleaned up) and returns the original
path. -/
theorem checkRotation_spec (config : LoggerConfig) (inProgress : Bool) (ts : String)
    (cutoff : Int) (currentPath : String) (fs : FS) :
    ((config.rotation.enabled = false ∨ inProgress = true) →
      checkRotation config inProgress ts cutoff currentPath fs = (none, fs)) ∧
    (∀ st : ActiveStat, config.rotation.enabled = true → inProgress = false →
      fs.active = some st →
      (st.size : Int) > config.rotation.maxSizeMB * (1024 * 1024) →
      checkRotation config inProgress ts cutoff currentPath fs =
        (some currentPath,
         { active := none
           archive := cleanupArchive config cutoff
             (fs.archive ++ [⟨archiveFilename currentPath ts, st.mtime, st.size⟩]) })) := by
  constructor
  · rintro (h | h) <;> simp [checkRotation, h]
  · intro st hen hip hst hsz
    have h' : config.rotation.maxSizeMB * 1048576 < (st.size : Int) := by omega
    simp [checkRotation, hen, hip, hst, rotate, h']

/-- Witness for C5: a disabled configuration never rotates a huge file, and
an enabled one rotates a 2 MB file past a 1 MB limit, returning the path. -/
theorem checkRotation_spec_witness :
    checkRotation
        { sampleCfg with rotation := { enabled := false, maxSizeMB := 1, maxFiles := 3, maxAgeDays := 7 } }
        false "T" 0 "logs/test.ndjson" { active := some ⟨2097152, 50⟩, archive := [] } =
      (none, { active := some ⟨2097152, 50⟩, archive := [] }) ∧
    checkRotation
        { sampleCfg with rotation := { enabled := true, maxSizeMB := 1, maxFiles := 3, maxAgeDays := 7 } }
        false "T" 0 "logs/test.ndjson" { active := some ⟨2097152, 50⟩, archive := [] } =
      (some "logs/test.ndjson",
       { active := none
         archive := cleanupArchive
           { sampleCfg with rotation := { enabled := true, maxSizeMB := 1, maxFiles := 3, maxAgeDays := 7 } }
           0 ([] ++ [⟨archiveFilename "logs/test.ndjson" "T", 50, 2097152⟩]) }) :=
  ⟨(checkRotation_spec _ _ _ _ _ _).1 (Or.inl (by decide)),
   (checkRotation_spec _ _ _ _ _ _).2 ⟨2097152, 50⟩ (by decide) rfl rfl (by decide)⟩

/-- C6 (code bug): the repo's own test `should respect maxFiles limit`
creates five compressed archives `test-0.ndjson.gz` … `test-4.ndjson.gz`
with `maxFiles := 3` and expects `cleanup` to leave exactly 3, but
`cleanup` filters the archive listing to names ending `.ndjson`, sees no
files and deletes nothing: all five remain. -/
theorem cleanup_ignores_gz_archives :
    cleanupArchive
        { sampleCfg with rotation := { enabled := true, maxSizeMB := 1, maxFiles := 3, maxAgeDays := 7 } }
        (-1000000)
        [⟨"test-0.ndjson.gz", 0, 10⟩, ⟨"test-1.ndjson.gz", 1, 10⟩,
         ⟨"test-2.ndjson.gz", 2, 10⟩, ⟨"test-3.ndjson.gz", 3, 10⟩,
         ⟨"test-4.ndjson.gz", 4, 10⟩] =
      [⟨"test-0.ndjson.gz", 0, 10⟩, ⟨"test-1.ndjson.gz", 1, 10⟩,
       ⟨"test-2.ndjson.gz", 2, 10⟩, ⟨"test-3.ndjson.gz", 3, 10⟩,
       ⟨"test-4.ndjson.gz", 4, 10⟩] ∧
    ([⟨"test-0.ndjson.gz", 0, 10⟩, ⟨"test-1.ndjson.gz", 1, 10⟩,
      ⟨"test-2.ndjson.gz", 2, 10⟩, ⟨"test-3.ndjson.gz", 3, 10⟩,
      ⟨"test-4.ndjson.gz", 4, 10⟩] : List FSFile).length = 5 := by
  constructor
  · decide
  · rfl

/-- Membership in a stable newest-first insertion. -/
theorem mem_insertByMtimeDesc {g f : FSFile} {l : List FSFile} :
    g ∈ insertByMtimeDesc f l ↔ g = f ∨ g ∈ l := by
  induction l with
  | nil => simp [insertByMtimeDesc]
  | cons hd tl ih =>
    unfold insertByMtimeDesc
    split_ifs with h
    · simp
    · simp only [List.mem_cons, ih]
      tauto

/-- The newest-first sort is membership-preserving. -/
theorem mem_sortByMtimeDesc {g : FSFile} {l : List FSFile} :
    g ∈ sortByMtimeDesc l ↔ g ∈ l := by
  induction l with
  | nil => simp [sortByMtimeDesc]
  | cons hd tl ih =>
    unfold sortByMtimeDesc
    rw [mem_insertByMtimeDesc]
    simp [ih]

/-- Everything `cleanup` considers deleting carries a `.ndjson` name. -/
theorem deleteNames_end_ndjson (config : LoggerConfig) (cutoff : Int)
    (archive : List FSFile) (g : FSFile)
    (hg : g ∈ (if ((sortByMtimeDesc (archive.filter fun f => endsWithJs f.name ".ndjson")).length : Int) >
          config.rotation.maxFiles then
        jsSlice (sortByMtimeDesc (archive.filter fun f => endsWithJs f.name ".ndjson"))
          config.rotation.maxFiles else []) ++
      (sortByMtimeDesc (archive.filter fun f => endsWithJs f.name ".ndjson")).filter
        (fun f => f.mtime < cutoff)) :
    endsWithJs g.name ".ndjson" = true := by
  rw [List.mem_append] at hg
  have hfiles : ∀ f : FSFile,
      f ∈ sortByMtimeDesc (archive.filter fun f => endsWithJs f.name ".ndjson") →
      endsWithJs f.name ".ndjson" = true := by
    intro f hf
    rw [mem_sortByMtimeDesc] at hf
    exact (List.mem_filter.mp hf).2
  rcases hg with hg | hg
  · split_ifs at hg with hc
    · unfold jsSlice at hg
      split_ifs at hg <;> exact hfiles g (List.drop_subset _ _ hg)
    · simp at hg
  · exact hfiles g (List.mem_filter.mp hg).1

/-- C9: retention only ever touches `.ndjson` names — `cleanup` never
deletes, and `getArchivedFiles` never lists, a file whose name does not end
in `.ndjson`; in particular compressed `.ndjson.gz` archives are exempt from
both the count cap and the age cap. -/
theorem retention_exempts_non_ndjson (config : LoggerConfig) (cutoff : Int)
    (archive : List FSFile) (f : FSFile)
    (hnd : endsWithJs f.name ".ndjson" = false) :
    (f ∈ archive → f ∈ cleanupArchive config cutoff archive) ∧
      f ∉ getArchivedFilesM archive := by
  constructor
  · intro hf
    unfold cleanupArchive
    split_ifs with hen
    · exact hf
    · refine List.mem_filter.mpr ⟨hf, ?_⟩
      simp only [Bool.not_eq_true']
      rw [Bool.eq_false_iff]
      intro hct
      obtain ⟨g, hg, hname⟩ := List.mem_map.mp (List.mem_of_elem_eq_true hct)
      have hgnd := deleteNames_end_ndjson config cutoff archive g hg
      rw [hname] at hgnd
      rw [hgnd] at hnd
      exact absurd hnd (by simp)
  · intro hf
    unfold getArchivedFilesM at hf
    rw [mem_sortByMtimeDesc] at hf
    have := (List.mem_filter.mp hf).2
    rw [this] at hnd
    simp at hnd

/-- Witness for C9 on a concrete compressed archive file. -/
theorem retention_exempts_non_ndjson_witness :
    ((⟨"agent-2025-01-30.ndjson.gz", 0, 5⟩ : FSFile) ∈
        cleanupArchive sampleCfg 100 [⟨"agent-2025-01-30.ndjson.gz", 0, 5⟩]) ∧
      (⟨"agent-2025-01-30.ndjson.gz", 0, 5⟩ : FSFile) ∉
        getArchivedFilesM [⟨"agent-2025-01-30.ndjson.gz", 0, 5⟩] :=
  ⟨(retention_exempts_non_ndjson sampleCfg 100 _ _ (by decide)).1 (by simp),
   (retention_exempts_non_ndjson sampleCfg 100 _ _ (by decide)).2⟩

/-- Looking up the key just set finds the new value. -/
theorem getKey_setKey_self (k : String) (v : JValue) (kvs : List (String × JValue)) :
    getKey k (setKey k v kvs) = some v := by
  induction kvs with
  | nil => simp [setKey, getKey]
  | cons hd tl ih =>
    obtain ⟨k0, w⟩ := hd
    unfold setKey
    split_ifs with h
    · simp [getKey, h]
    · simp [getKey, h, ih]

/-- Setting one key leaves lookups of other keys unchanged. -/
theorem getKey_setKey_ne (k k' : String) (v : JValue) (kvs : List (String × JValue))
    (h : k ≠ k') : getKey k' (setKey k v kvs) = getKey k' kvs := by
  induction kvs with
  | nil => simp [setKey, getKey, h]
  | cons hd tl ih =>
    obtain ⟨k0, w⟩ := hd
    unfold setKey
    split_ifs with h0
    · subst h0
      simp [getKey, h]
    · by_cases h1 : k0 = k' <;> simp [getKey, h1, ih]

/-- The length of a replicated-character string. -/
theorem lenJs_repChar (n : Nat) (c : Char) : lenJs (repChar n c) = n :=
  List.length_replicate n c

/-- String concatenation adds lengths. -/
theorem lenJs_append (a b : String) : lenJs (a ++ b) = lenJs a + lenJs b := by
  obtain ⟨d1⟩ := a
  obtain ⟨d2⟩ := b
  exact List.length_append d1 d2

/-- A character that escapes to itself leaves replicated strings unchanged
under JSON escaping. -/
theorem escapeJson_repChar (n : Nat) (c : Char) (h : escChar c = [c]) :
    escapeJson (repChar n c) = repChar n c := by
  show (⟨(List.replicate n c).flatMap escChar⟩ : String) = ⟨List.replicate n c⟩
  congr 1
  induction n with
  | zero => rfl
  | succ m ih => simp [List.replicate_succ, h, ih]

/-- The early-return branch of `truncateOutput`: a string `output` longer
than the threshold is replaced in place, and the two annotations are set. -/
theorem truncateOutput_output_branch (kvs : List (String × JValue)) (s : String)
    (maxLength : Nat) (hs : getKey "output" kvs = some (.vStr s))
    (hl : lenJs s > maxLength) :
    truncateOutput (.obj kvs) maxLength =
      .obj (setKey "original_length" (.vNum (lenJs s))
        (setKey "truncated" (.vBool true)
          (setKey "output" (.vStr (takeJs s maxLength ++ "... [truncated " ++
            toString (lenJs s - maxLength) ++ " chars]")) kvs))) := by
  simp only [truncateOutput]
  rw [hs]
  simp [hl]

/-- String concatenation is associative. -/
theorem strAppend_assoc (a b c : String) : a ++ b ++ c = a ++ (b ++ c) := by
  obtain ⟨da⟩ := a
  obtain ⟨db⟩ := b
  obtain ⟨dc⟩ := c
  show (⟨(da ++ db) ++ dc⟩ : String) = ⟨da ++ (db ++ dc)⟩
  rw [List.append_assoc]

/-- Concatenating the computed count into the truncation marker. -/
theorem marker_concat (t : String) :
    t ++ "... [truncated " ++ toString (5000 : Nat) ++ " chars]" =
      t ++ "... [truncated 5000 chars]" := by
  rw [strAppend_assoc, strAppend_assoc]
  congr 1

/-- C3 counterexample: on a result that already carries a `truncated` field,
the spread-with-override in the long-output branch replaces that field's
value with `true`, so not every field other than `output` is preserved. -/
theorem truncateOutput_clobbers_existing_field :
    getKey "truncated" (objProps (truncateOutput (JValue.obj
        [("output", JValue.vStr (repChar 15000 'a')), ("truncated", JValue.vStr "keep")])
        10000)) = some (JValue.vBool true) ∧
    getKey "truncated"
        [("output", JValue.vStr (repChar 15000 'a')), ("truncated", JValue.vStr "keep")] =
      some (JValue.vStr "keep") := by
  constructor
  · rw [truncateOutput_output_branch
      [("output", JValue.vStr (repChar 15000 'a')), ("truncated", JValue.vStr "keep")]
      (repChar 15000 'a') 10000 rfl (by rw [lenJs_repChar]; omega)]
    simp only [objProps]
    rw [getKey_setKey_ne _ _ _ _ (by decide), getKey_setKey_self]
  · rfl

/-- C3 (amended): for every result object whose `output` field is a string
of length 15000, `truncateOutput` at threshold 10000 yields an object whose
`output` is the first 10000 characters followed by the marker
`... [truncated 5000 chars]`, with `truncated: true` and
`original_length: 15000`; every field other than `output`, `truncated` and
`original_length` is preserved (those two annotation keys are overwritten if
the result already had them — the correction). -/
theorem truncateOutput_at_15000 (kvs : List (String × JValue)) (s : String)
    (hs : getKey "output" kvs = some (.vStr s)) (hl : lenJs s = 15000) :
    getKey "output" (objProps (truncateOutput (.obj kvs) 10000)) =
        some (.vStr (takeJs s 10000 ++ "... [truncated 5000 chars]")) ∧
      getKey "truncated" (objProps (truncateOutput (.obj kvs) 10000)) =
        some (.vBool true) ∧
      getKey "original_length" (objProps (truncateOutput (.obj kvs) 10000)) =
        some (.vNum 15000) ∧
      ∀ k, k ≠ "output" → k ≠ "truncated" → k ≠ "original_length" →
        getKey k (objProps (truncateOutput (.obj kvs) 10000)) = getKey k kvs := by
  have hgt : lenJs s > 10000 := by omega
  rw [truncateOutput_output_branch kvs s 10000 hs hgt]
  simp only [objProps]
  refine ⟨?_, ?_, ?_, ?_⟩
  · rw [getKey_setKey_ne _ _ _ _ (by decide), getKey_setKey_ne _ _ _ _ (by decide),
      getKey_setKey_self, hl]
    norm_num
    rw [marker_concat]
  · rw [getKey_setKey_ne _ _ _ _ (by decide), getKey_setKey_self]
  · rw [getKey_setKey_self, hl]
    norm_cast
  · intro k h1 h2 h3
    rw [getKey_setKey_ne _ _ _ _ (Ne.symm h3), getKey_setKey_ne _ _ _ _ (Ne.symm h2),
      getKey_setKey_ne _ _ _ _ (Ne.symm h1)]

/-- Witness for the amended C3 on a concrete 15000-character output. -/
theorem truncateOutput_at_15000_witness :
    getKey "truncated" (objProps (truncateOutput
        (JValue.obj [("output", JValue.vStr (repChar 15000 'a'))]) 10000)) =
      some (JValue.vBool true) ∧
    lenJs (repChar 15000 'a') = 15000 :=
  ⟨(truncateOutput_at_15000 [("output", JValue.vStr (repChar 15000 'a'))]
      (repChar 15000 'a') rfl (lenJs_repChar 15000 'a')).2.1,
   lenJs_repChar 15000 'a'⟩

/-- The serialized form of `bigPayload` is longer than twice the 10000
threshold (its `data` string alone serializes to 30002 characters). -/
theorem bigPayload_stringify_long :
    lenJs (jsonStringify (JValue.obj bigPayload)) > 10000 * 2 := by
  have e2 : escapeJson (repChar 30000 'b') = repChar 30000 'b' :=
    escapeJson_repChar 30000 'b' (by decide)
  have h1 : jsonStringify (JValue.obj bigPayload) =
      "\x7b" ++ stringifyObj bigPayload ++ "\x7d" := rfl
  have h2 : stringifyObj bigPayload =
      quoteJson "output" ++ ":" ++ quoteJson (repChar 9000 'a') ++ "," ++
        (quoteJson "data" ++ ":" ++ quoteJson (repChar 30000 'b')) := rfl
  have h3 : quoteJson (repChar 30000 'b') = "\"" ++ escapeJson (repChar 30000 'b') ++ "\"" := rfl
  rw [h1, h2, h3, e2]
  simp only [lenJs_append, lenJs_repChar]
  omega

/-- C4: the output-field truncation check and the whole-payload size check of
`truncateOutput` are independent — on `bigPayload` the first check runs (the
`output` field is a string, whose length 9000 stays under the threshold and
does not fire) and the second check still fires, collapsing the payload to
the `_truncated` summary object. -/
theorem truncateOutput_checks_independent :
    getKey "output" bigPayload = some (JValue.vStr (repChar 9000 'a')) ∧
    lenJs (repChar 9000 'a') ≤ 10000 ∧
    getKey "_truncated" bigPayload = none ∧
    getKey "_truncated" (objProps (truncateOutput (JValue.obj bigPayload) 10000)) =
      some (JValue.vBool true) := by
  have hno : ¬ lenJs (repChar 9000 'a') > 10000 := by rw [lenJs_repChar]; omega
  have hgt := bigPayload_stringify_long
  refine ⟨rfl, by rw [lenJs_repChar]; omega, rfl, ?_⟩
  have hX : truncateOutput (JValue.obj bigPayload) 10000 =
      JValue.obj [("_truncated", .vBool true),
        ("_original_size", .vNum (lenJs (jsonStringify (JValue.obj bigPayload)))),
        ("_summary", .vStr "Output was too large and was truncated"),
        ("preview", .vStr (takeJs (jsonStringify (JValue.obj bigPayload)) 10000 ++ "..."))] := by
    simp only [truncateOutput]
    rw [show getKey "output" bigPayload = some (JValue.vStr (repChar 9000 'a')) from rfl]
    simp [hno, hgt]
  rw [hX]
  rfl

/-- C7 counterexample: an object whose only value is the whitespace-only
string `" "` is *not* dropped by `serializeSystemEvent` — the `hasAnyValue`
check compares against the empty string only, never trimming, so the event
is serialized even though every value is whitespace. -/
theorem systemEvent_keeps_whitespace_valued_object :
    (serializeSystemEvent "custom_metric" (JValue.obj [("a", JValue.vStr " ")])
        cfgDebug none sampleNow).isSome = true ∧
      lenJs (trimJs " ") = 0 := by
  constructor
  · decide
  · rfl

/-- A value the noise filter counts as empty never counts as content in
`hasAnyValue`. -/
theorem countsAsValue_emptyish (v : JValue) (h : emptyishValue v = true) :
    countsAsValue v = false := by
  cases v with
  | vNull => rfl
  | vBool b => simp [emptyishValue] at h
  | vNum n => simp [emptyishValue] at h
  | vStr s =>
    simp only [emptyishValue] at h
    simp [countsAsValue, h]
  | arr xs =>
    cases xs with
    | nil => rfl
    | cons x xs => simp [emptyishValue] at h
  | obj kvs =>
    cases kvs with
    | nil => rfl
    | cons kv kvs => simp [emptyishValue] at h

/-- A list of empty-ish values contains no content. -/
theorem any_countsAsValue_false (l : List JValue)
    (h : ∀ v ∈ l, emptyishValue v = true) : l.any countsAsValue = false := by
  induction l with
  | nil => rfl
  | cons x xs ih =>
    rw [List.any_cons, countsAsValue_emptyish x (h x (by simp)),
      ih fun v hv => h v (by simp [hv])]
    rfl

/-- A droppable payload trips one of the four emptiness guards of
`serializeSystemEvent`. -/
theorem droppablePayload_guard (payload : JValue) (h : droppablePayload payload = true) :
    jsTruthy payload = false ∨
    (isJsObject payload && jsKeyCount payload == 0) = true ∨
    (isJsObject payload && !hasAnyValue payload) = true ∨
    isBlankStringPayload payload = true := by
  cases payload with
  | vNull => left; rfl
  | vBool b => simp [droppablePayload] at h
  | vNum n => simp [droppablePayload] at h
  | vStr s =>
    right; right; right
    simp only [droppablePayload, beq_iff_eq] at h
    simp [isBlankStringPayload, h, lenJs]
  | obj kvs =>
    cases kvs with
    | nil => right; left; rfl
    | cons kv kvs =>
      right; right; left
      simp only [droppablePayload, List.all_eq_true] at h
      have : hasAnyValue (JValue.obj (kv :: kvs)) = false := by
        unfold hasAnyValue
        refine any_countsAsValue_false _ ?_
        intro v hv
        simp only [jsValues, List.mem_map] at hv
        obtain ⟨p, hp, rfl⟩ := hv
        exact h p hp
      simp [isJsObject, this]
  | arr xs =>
    cases xs with
    | nil => right; left; rfl
    | cons x xs =>
      right; right; left
      simp only [droppablePayload, List.all_eq_true] at h
      have : hasAnyValue (JValue.arr (x :: xs)) = false := by
        unfold hasAnyValue
        exact any_countsAsValue_false _ fun v hv => h v (by simpa [jsValues] using hv)
      simp [isJsObject, this]

/-- C7 (amended): a system event whose payload is null, an empty or
whitespace-only string, or an object/array all of whose values are null,
empty strings or key-less objects, is dropped: no record is produced, under
every configuration.  (An object holding a whitespace-only nonempty string
value is not dropped — the correction.) -/
theorem systemEvent_drops_empty_payloads (ty : String) (payload : JValue)
    (config : LoggerConfig) (sid : Option String) (now : Instant)
    (h : droppablePayload payload = true) :
    serializeSystemEvent ty payload config sid now = none := by
  unfold serializeSystemEvent
  split_ifs with h1 h2 h3 h4 h5 h6 h7
  all_goals try rfl
  rcases droppablePayload_guard payload h with hg | hg | hg | hg <;> simp_all

/-- Witness for the amended C7 on a concrete contentless object payload. -/
theorem systemEvent_drops_empty_payloads_witness :
    serializeSystemEvent "resource_usage"
        (JValue.obj [("a", JValue.vNull), ("b", JValue.vStr ""), ("c", JValue.obj [])])
        cfgDebug none sampleNow = none :=
  systemEvent_drops_empty_payloads "resource_usage" _ cfgDebug none sampleNow (by decide)
